import Mathlib

/-!
Shallow embedding of `elevator_simulation.py` (single-file elevator dispatch
simulation) and proofs of the specification's claims about it.

Conventions of the embedding:
* Python integers are Lean `Int`.
* The mutable `Elevator` object is a record passed and returned explicitly.
* The two floor-by-floor `while` loops inside `process_elevator` are modelled
  with explicit fuel; a loop that cannot exit within the given fuel (or that
  provably never exits) yields `none`, lifted to the error `Err.nonterm`.
* `print` side effects are dropped, except for the status snapshots emitted by
  `show_status` after every move, which are collected into a trace so that
  "at every intermediate step" properties can be stated.
* Uncaught Python exceptions (`IndexError` from `signal[i]`, `ValueError` from
  `int(...)`) are the error channel of `Except Err`.
-/

namespace ElevatorSim

/-- Motion status of an elevator: the `Status` enum of the source
(lines 72–76). -/
inductive Status where
  | REST
  | UP
  | DOWN
  | MAINTENANCE
deriving DecidableEq, Repr

/-- State of one elevator car: the fields of class `Elevator` (lines 17–24).
`capacity` is the maximum capacity, `current_capacity` the occupancy,
`floor` the top floor, `current_floor` the car's position, exactly as the
source names them. -/
structure Elevator where
  id : String
  capacity : Int
  current_capacity : Int
  status : Status
  floor : Int
  current_floor : Int
deriving DecidableEq, Repr

/-- Constructor `Elevator.__init__` (lines 18–24): occupancy 0, status `REST`,
position hard-coded to floor 1. -/
def Elevator.init (id : String) (capacity floor : Int) : Elevator :=
  { id := id, capacity := capacity, current_capacity := 0,
    status := Status.REST, floor := floor, current_floor := 1 }

/-- Method `set_status` (lines 33–45): converts a string token into a `Status`.
The wildcard branch of the Python `match` only prints a diagnostic, so an
unrecognized token leaves the object unchanged. -/
def set_status (e : Elevator) (s : String) : Elevator :=
  if s = "UP" then { e with status := Status.UP }
  else if s = "DOWN" then { e with status := Status.DOWN }
  else if s = "REST" then { e with status := Status.REST }
  else if s = "MAINTENANCE" then { e with status := Status.MAINTENANCE }
  else e

/-- Method `move_up` (lines 53–56): `self.current_floor += 1`, then
`show_status()`. No bounds check of any kind. -/
def move_up (e : Elevator) : Elevator :=
  { e with current_floor := e.current_floor + 1 }

/-- Method `move_down` (lines 58–61): `self.current_floor -= 1`, then
`show_status()`. No bounds check of any kind. -/
def move_down (e : Elevator) : Elevator :=
  { e with current_floor := e.current_floor - 1 }

/-- The in-place occupancy mutation the dispatch loop performs:
`elevator.current_capacity += capacity` (line 216) and, with a negated delta,
`elevator.current_capacity -= capacity` (line 245). Plain integer addition: the
source contains no bounds check and no exception on this path. -/
def add_occupancy (e : Elevator) (delta : Int) : Elevator :=
  { e with current_capacity := e.current_capacity + delta }

/-- Function `sanity_check` (lines 148–156): capacity rule, then the two
direction-consistency rules, each an early `return True`; otherwise
`return False`. -/
def sanity_check (e : Elevator) (direction : String) (dest_floor capacity : Int) : Bool :=
  if e.current_capacity + capacity ≤ e.capacity then
    if direction = "UP" ∧ dest_floor > e.current_floor then true
    else if direction = "DOWN" ∧ dest_floor < e.current_floor then true
    else false
  else false

/-- Errors that can escape one iteration of the dispatch loop body. -/
inductive Err where
  /-- Python `ValueError`, raised by `int(...)` on a non-numeric string. -/
  | valueError
  /-- Python `IndexError`, raised by `signal[i]` on a too-short list. -/
  | indexError
  /-- An inner `while` loop failed to exit within the available fuel
  (including the case where it provably never exits). -/
  | nonterm
deriving DecidableEq, Repr

/-- Python list subscription `l[i]`, raising `IndexError` when out of range. -/
def getItem (l : List String) (i : Nat) : Except Err String :=
  match l.get? i with
  | some s => Except.ok s
  | none => Except.error Err.indexError

/-- Value of a non-empty all-digit character list, `none` otherwise. -/
def digitsVal (cs : List Char) : Option Nat :=
  if cs = [] ∨ ¬ cs.all Char.isDigit then none
  else some (cs.foldl (fun acc c => acc * 10 + (c.toNat - 48)) 0)

/-- Python `int(s)` on a string, for canonical decimal literals (an optional
sign followed by digits); anything else raises `ValueError`. This covers every
string the program itself ever feeds to `int`, since `create_signal` only
enqueues strings that `int` accepted. -/
def pyInt (s : String) : Except Err Int :=
  match s.toList with
  | '-' :: rest =>
    match digitsVal rest with
    | some n => Except.ok (-(n : Int))
    | none => Except.error Err.valueError
  | '+' :: rest =>
    match digitsVal rest with
    | some n => Except.ok (n : Int)
    | none => Except.error Err.valueError
  | l =>
    match digitsVal l with
    | some n => Except.ok (n : Int)
    | none => Except.error Err.valueError

/-- An item of the module-level `input_queue` (line 79): either the literal
string `"QUIT"` (the termination sentinel, line 94) or a list of strings
`[DIRECTION, DEST_FLOOR, CAPACITY, START_FLOOR]` (lines 82 and 141). -/
inductive QueueItem where
  | quit
  | sig (fields : List String)
deriving DecidableEq, Repr

/-- Python `str.upper()`, uppercasing character by character (the strings this
program handles are ASCII). Implemented by mapping `Char.toUpper` over the
characters so that it evaluates definitionally. -/
def pyUpper (s : String) : String := String.mk (s.data.map Char.toUpper)

/-- Field extraction of lines 184–187, in source order:
`direction = signal[0].upper()`, `dest_floor = int(signal[1])`,
`capacity = int(signal[2])`, `start_floor = int(signal[3])`. Any of the
subscription or conversion errors propagates (there is no `try` in
`process_elevator`). -/
def parse_fields (fields : List String) : Except Err (String × Int × Int × Int) :=
  match getItem fields 0 with
  | Except.error er => Except.error er
  | Except.ok d0 =>
    match getItem fields 1 with
    | Except.error er => Except.error er
    | Except.ok s1 =>
      match pyInt s1 with
      | Except.error er => Except.error er
      | Except.ok dest_floor =>
        match getItem fields 2 with
        | Except.error er => Except.error er
        | Except.ok s2 =>
          match pyInt s2 with
          | Except.error er => Except.error er
          | Except.ok capacity =>
            match getItem fields 3 with
            | Except.error er => Except.error er
            | Except.ok s3 =>
              match pyInt s3 with
              | Except.error er => Except.error er
              | Except.ok start_floor =>
                Except.ok (pyUpper d0, dest_floor, capacity, start_floor)

/-- The floor-by-floor `while elevator.current_floor != target` loops of
`process_elevator`, with explicit fuel. `breakOther = false` is the pickup
loop (lines 201–208): when the status is neither `UP` nor `DOWN` its body does
nothing, so the loop never exits — modelled as `none`. `breakOther = true` is
the drop-off loop (lines 227–238), whose final `else` branch `break`s out.
Returns the final state together with the status snapshots `show_status`
prints after each single-floor move. -/
def move_loop (breakOther : Bool) : Nat → Elevator → Int → Option (Elevator × List Elevator)
  | 0, e, target => if e.current_floor = target then some (e, []) else none
  | f + 1, e, target =>
    if e.current_floor = target then some (e, [])
    else
      match e.status with
      | Status.UP =>
        match move_loop breakOther f (move_up e) target with
        | some (e', tr) => some (e', move_up e :: tr)
        | none => none
      | Status.DOWN =>
        match move_loop breakOther f (move_down e) target with
        | some (e', tr) => some (e', move_down e :: tr)
        | none => none
      | _ => if breakOther then some (e, []) else none

/-- One iteration of the dispatch loop body of `process_elevator`
(lines 179–254) on a single dequeued item. Returns the updated elevator,
whether the loop keeps running, and the move-by-move status snapshots; an
uncaught Python error or a non-terminating inner loop is `Except.error`. -/
def process_one (fuel : Nat) (e : Elevator) : QueueItem → Except Err (Elevator × Bool × List Elevator)
  | QueueItem.quit => Except.ok (e, false, [])
  | QueueItem.sig fields =>
    match parse_fields fields with
    | Except.error er => Except.error er
    | Except.ok (direction, dest_floor, capacity, start_floor) =>
      let e1 :=
        if e.current_floor - start_floor > 0 then set_status e "DOWN"
        else if e.current_floor - start_floor < 0 then set_status e "UP"
        else e
      match move_loop false fuel e1 start_floor with
      | none => Except.error Err.nonterm
      | some (e2, tr1) =>
        let e3 := set_status e2 "REST"
        if sanity_check e3 direction dest_floor capacity then
          let e4 := add_occupancy e3 capacity
          let e5 :=
            if direction = "UP" ∨ direction = "DOWN" then set_status e4 direction else e4
          match move_loop true fuel e5 dest_floor with
          | none => Except.error Err.nonterm
          | some (e6, tr2) =>
            let e7 := set_status e6 "REST"
            let e8 := add_occupancy e7 (-capacity)
            Except.ok (e8, true, tr1 ++ tr2)
        else
          Except.ok (e3, true, tr1)

/-- The dispatch loop `process_elevator` (lines 173–254) run over a finite
prefix of the queue's contents, in FIFO order. Processing stops when the
`"QUIT"` sentinel sets `elevator_running = False`; an error escaping an
iteration aborts the whole loop (nothing in the source catches it). -/
def process_elevator (fuel : Nat) (e : Elevator) : List QueueItem → Except Err (Elevator × List Elevator)
  | [] => Except.ok (e, [])
  | item :: rest =>
    match process_one fuel e item with
    | Except.error er => Except.error er
    | Except.ok (e', running, tr) =>
      if running then
        match process_elevator fuel e' rest with
        | Except.error er => Except.error er
        | Except.ok (e'', tr') => Except.ok (e'', tr ++ tr')
      else Except.ok (e', tr)

/-- Request Source bounds from §6 of the design: a queue item holding a
request whose parsed direction is UP or DOWN, whose origin and destination
floors lie in `[1, top]`, and whose party size lies in `[0, cap]`. -/
def well_bounded (cap top : Int) (item : QueueItem) : Bool :=
  match item with
  | QueueItem.quit => false
  | QueueItem.sig fields =>
    match parse_fields fields with
    | Except.error _ => false
    | Except.ok (d, dest, party, start) =>
      decide ((d = "UP" ∨ d = "DOWN") ∧ 1 ≤ start ∧ start ≤ top ∧
        1 ≤ dest ∧ dest ≤ top ∧ 0 ≤ party ∧ party ≤ cap)

/-- The car-state invariant of §3 and §8 of the design, relative to the fixed
capacity and top floor: occupancy in `[0, cap]`, position in `[1, top]`. -/
def in_bounds (cap top : Int) (e : Elevator) : Prop :=
  0 ≤ e.current_capacity ∧ e.current_capacity ≤ cap ∧
    1 ≤ e.current_floor ∧ e.current_floor ≤ top

instance (cap top : Int) (e : Elevator) : Decidable (in_bounds cap top e) := by
  unfold in_bounds
  infer_instance

/-- Type of the failure the spec's `set_occupancy_delta` is said to raise. -/
inductive CapacityError where
  | capacityError
deriving DecidableEq, Repr

/-- Modelled from the spec: the Car operation `set_occupancy_delta(delta)` of
§4.1, which "adds delta to current occupancy; fails with `CapacityError` if
the result would go negative or exceed capacity". No such operation exists in
the source; this definition follows the spec's words so that the claim can be
compared against what the code actually does (`add_occupancy`). -/
def set_occupancy_delta_spec (e : Elevator) (delta : Int) : Except CapacityError Elevator :=
  if e.current_capacity + delta < 0 ∨ e.capacity < e.current_capacity + delta then
    Except.error CapacityError.capacityError
  else
    Except.ok { e with current_capacity := e.current_capacity + delta }

/-! ### Helper lemmas about the primitive operations -/

@[simp] lemma set_status_id (e : Elevator) (s : String) : (set_status e s).id = e.id := by
  unfold set_status
  split <;> try rfl
  split <;> try rfl
  split <;> try rfl
  split <;> rfl

@[simp] lemma set_status_capacity (e : Elevator) (s : String) :
    (set_status e s).capacity = e.capacity := by
  unfold set_status
  split <;> try rfl
  split <;> try rfl
  split <;> try rfl
  split <;> rfl

@[simp] lemma set_status_current_capacity (e : Elevator) (s : String) :
    (set_status e s).current_capacity = e.current_capacity := by
  unfold set_status
  split <;> try rfl
  split <;> try rfl
  split <;> try rfl
  split <;> rfl

@[simp] lemma set_status_floor (e : Elevator) (s : String) :
    (set_status e s).floor = e.floor := by
  unfold set_status
  split <;> try rfl
  split <;> try rfl
  split <;> try rfl
  split <;> rfl

@[simp] lemma set_status_current_floor (e : Elevator) (s : String) :
    (set_status e s).current_floor = e.current_floor := by
  unfold set_status
  split <;> try rfl
  split <;> try rfl
  split <;> try rfl
  split <;> rfl

@[simp] lemma set_status_UP (e : Elevator) :
    set_status e "UP" = { e with status := Status.UP } := rfl

@[simp] lemma set_status_DOWN (e : Elevator) :
    set_status e "DOWN" = { e with status := Status.DOWN } := by
  unfold set_status
  rw [if_neg (by decide), if_pos rfl]

@[simp] lemma set_status_REST (e : Elevator) :
    set_status e "REST" = { e with status := Status.REST } := by
  unfold set_status
  rw [if_neg (by decide), if_neg (by decide), if_pos rfl]

/-! ### Exact runs of the movement loops -/

/-- Snapshots emitted by an ascent of `k` floors from `e`. -/
def up_trace (e : Elevator) (k : Nat) : List Elevator :=
  (List.range k).map fun i : Nat => { e with current_floor := e.current_floor + (i : Int) + 1 }

/-- Snapshots emitted by a descent of `k` floors from `e`. -/
def down_trace (e : Elevator) (k : Nat) : List Elevator :=
  (List.range k).map fun i : Nat => { e with current_floor := e.current_floor - (i : Int) - 1 }

@[simp] lemma up_trace_length (e : Elevator) (k : Nat) : (up_trace e k).length = k := by
  simp [up_trace]

@[simp] lemma down_trace_length (e : Elevator) (k : Nat) : (down_trace e k).length = k := by
  simp [down_trace]

lemma up_trace_succ (e : Elevator) (k : Nat) :
    up_trace e (k + 1) = move_up e :: up_trace (move_up e) k := by
  unfold up_trace move_up
  rw [List.range_succ_eq_map]
  simp only [List.map_cons, List.map_map, Nat.cast_zero, List.cons.injEq]
  constructor
  · simp
  · apply List.map_congr_left
    intro i _
    simp [Function.comp, Elevator.mk.injEq]
    ring

lemma down_trace_succ (e : Elevator) (k : Nat) :
    down_trace e (k + 1) = move_down e :: down_trace (move_down e) k := by
  unfold down_trace move_down
  rw [List.range_succ_eq_map]
  simp only [List.map_cons, List.map_map, Nat.cast_zero, List.cons.injEq]
  constructor
  · simp
  · apply List.map_congr_left
    intro i _
    simp [Function.comp, Elevator.mk.injEq]
    ring

lemma up_trace_mem (e : Elevator) (k : Nat) (x : Elevator) (hx : x ∈ up_trace e k) :
    x.id = e.id ∧ x.capacity = e.capacity ∧ x.current_capacity = e.current_capacity ∧
      x.floor = e.floor ∧ x.status = e.status ∧
      e.current_floor + 1 ≤ x.current_floor ∧ x.current_floor ≤ e.current_floor + k := by
  unfold up_trace at hx
  simp only [List.mem_map, List.mem_range] at hx
  obtain ⟨i, hi, rfl⟩ := hx
  refine ⟨rfl, rfl, rfl, rfl, rfl, ?_, ?_⟩ <;> simp
  omega

lemma down_trace_mem (e : Elevator) (k : Nat) (x : Elevator) (hx : x ∈ down_trace e k) :
    x.id = e.id ∧ x.capacity = e.capacity ∧ x.current_capacity = e.current_capacity ∧
      x.floor = e.floor ∧ x.status = e.status ∧
      e.current_floor - k ≤ x.current_floor ∧ x.current_floor ≤ e.current_floor - 1 := by
  unfold down_trace at hx
  simp only [List.mem_map, List.mem_range] at hx
  obtain ⟨i, hi, rfl⟩ := hx
  refine ⟨rfl, rfl, rfl, rfl, rfl, ?_, ?_⟩ <;> simp
  omega

/-- A loop whose status is `UP` climbs exactly to the target when the target is
`k ≥ 0` floors above and the fuel suffices. -/
lemma move_loop_up_run (b : Bool) :
    ∀ (k f : Nat) (e : Elevator), e.status = Status.UP → k ≤ f →
      move_loop b f e (e.current_floor + (k : Int)) =
        some ({ e with current_floor := e.current_floor + (k : Int) }, up_trace e k) := by
  intro k
  induction k with
  | zero =>
    intro f e hst _
    cases f <;> simp [move_loop, up_trace]
  | succ k ih =>
    intro f e hst hkf
    match f with
    | 0 => exact absurd hkf (by omega)
    | f + 1 =>
      rw [move_loop, if_neg (by push_cast; omega)]
      rw [up_trace_succ]
      have harith : e.current_floor + ((k + 1 : Nat) : Int) =
          (move_up e).current_floor + (k : Int) := by
        simp [move_up]
        ring
      rw [harith]
      split
      · rw [ih f (move_up e) hst (by omega)]
        rfl
      · case _ heq => rw [hst] at heq; cases heq
      · case _ heq => rw [hst] at heq; simp_all

/-- A loop whose status is `DOWN` descends exactly to the target when the
target is `k ≥ 0` floors below and the fuel suffices. -/
lemma move_loop_down_run (b : Bool) :
    ∀ (k f : Nat) (e : Elevator), e.status = Status.DOWN → k ≤ f →
      move_loop b f e (e.current_floor - (k : Int)) =
        some ({ e with current_floor := e.current_floor - (k : Int) }, down_trace e k) := by
  intro k
  induction k with
  | zero =>
    intro f e hst _
    cases f <;> simp [move_loop, down_trace]
  | succ k ih =>
    intro f e hst hkf
    match f with
    | 0 => exact absurd hkf (by omega)
    | f + 1 =>
      rw [move_loop, if_neg (by push_cast; omega)]
      rw [down_trace_succ]
      have harith : e.current_floor - ((k + 1 : Nat) : Int) =
          (move_down e).current_floor - (k : Int) := by
        simp [move_down]
        ring
      rw [harith]
      split
      · case _ heq => rw [hst] at heq; cases heq
      · rw [ih f (move_down e) hst (by omega)]
        rfl
      · case _ heq => rw [hst] at heq; simp_all

/-- A loop whose status is `UP` but whose target lies strictly below never
exits: the car only climbs further away. -/
lemma move_loop_up_none (b : Bool) :
    ∀ (f : Nat) (e : Elevator) (t : Int), e.status = Status.UP → t < e.current_floor →
      move_loop b f e t = none := by
  intro f
  induction f with
  | zero =>
    intro e t hst ht
    rw [move_loop, if_neg (by omega)]
  | succ f ih =>
    intro e t hst ht
    rw [move_loop, if_neg (by omega)]
    have hrec : move_loop b f (move_up e) t = none := by
      apply ih (move_up e) t hst
      simp [move_up]
      omega
    split
    · rw [hrec]
    · case _ heq => rw [hst] at heq; cases heq
    · case _ heq => rw [hst] at heq; simp_all

/-- A loop whose status is `DOWN` but whose target lies strictly above never
exits: the car only descends further away. -/
lemma move_loop_down_none (b : Bool) :
    ∀ (f : Nat) (e : Elevator) (t : Int), e.status = Status.DOWN → e.current_floor < t →
      move_loop b f e t = none := by
  intro f
  induction f with
  | zero =>
    intro e t hst ht
    rw [move_loop, if_neg (by omega)]
  | succ f ih =>
    intro e t hst ht
    rw [move_loop, if_neg (by omega)]
    have hrec : move_loop b f (move_down e) t = none := by
      apply ih (move_down e) t hst
      simp [move_down]
      omega
    split
    · case _ heq => rw [hst] at heq; cases heq
    · rw [hrec]
    · case _ heq => rw [hst] at heq; simp_all

/-- A movement loop whose status points toward the target reaches it in
exactly `|target - current|` single-floor steps, each snapshot staying between
the two endpoints and carrying the same occupancy. -/
lemma move_loop_reach (b : Bool) (fuel : Nat) (e : Elevator) (t : Int)
    (hst : (e.current_floor < t → e.status = Status.UP) ∧
      (t < e.current_floor → e.status = Status.DOWN))
    (hf : (t - e.current_floor).natAbs ≤ fuel) :
    ∃ tr, move_loop b fuel e t = some ({ e with current_floor := t }, tr) ∧
      tr.length = (t - e.current_floor).natAbs ∧
      ∀ x ∈ tr, x.id = e.id ∧ x.capacity = e.capacity ∧
        x.current_capacity = e.current_capacity ∧ x.floor = e.floor ∧ x.status = e.status ∧
        min e.current_floor t ≤ x.current_floor ∧ x.current_floor ≤ max e.current_floor t := by
  rcases lt_trichotomy e.current_floor t with h | h | h
  · -- ascend
    have hup := hst.1 h
    have hk : e.current_floor + ((t - e.current_floor).toNat : Int) = t := by omega
    have hrun := move_loop_up_run b (t - e.current_floor).toNat fuel e hup (by omega)
    rw [hk] at hrun
    refine ⟨up_trace e (t - e.current_floor).toNat, hrun, by simp; omega, fun x hx => ?_⟩
    obtain ⟨h1, h2, h3, h4, h5, h6, h7⟩ := up_trace_mem e _ x hx
    exact ⟨h1, h2, h3, h4, h5, by omega, by omega⟩
  · -- already there
    refine ⟨[], ?_, by simp; omega, by simp⟩
    have : ({ e with current_floor := t } : Elevator) = e := by rw [← h]
    rw [this]
    cases fuel <;> simp [move_loop, h]
  · -- descend
    have hdn := hst.2 h
    have hk : e.current_floor - ((e.current_floor - t).toNat : Int) = t := by omega
    have hrun := move_loop_down_run b (e.current_floor - t).toNat fuel e hdn (by omega)
    rw [hk] at hrun
    refine ⟨down_trace e (e.current_floor - t).toNat, hrun, by simp; omega, fun x hx => ?_⟩
    obtain ⟨h1, h2, h3, h4, h5, h6, h7⟩ := down_trace_mem e _ x hx
    exact ⟨h1, h2, h3, h4, h5, by omega, by omega⟩

/-- Any successful run of a movement loop, at any fuel: it preserves every
field except the position, the pickup variant exits exactly at the target, and
the final position and every snapshot stay between the entry floor and the
target. -/
lemma move_loop_ok (b : Bool) :
    ∀ (f : Nat) (e e' : Elevator) (t : Int) (tr : List Elevator),
      move_loop b f e t = some (e', tr) →
      e'.id = e.id ∧ e'.capacity = e.capacity ∧ e'.current_capacity = e.current_capacity ∧
        e'.status = e.status ∧ e'.floor = e.floor ∧
        (b = false → e'.current_floor = t) ∧
        min e.current_floor t ≤ e'.current_floor ∧ e'.current_floor ≤ max e.current_floor t ∧
        ∀ x ∈ tr, x.capacity = e.capacity ∧ x.current_capacity = e.current_capacity ∧
          x.floor = e.floor ∧
          min e.current_floor t ≤ x.current_floor ∧ x.current_floor ≤ max e.current_floor t := by
  intro f
  induction f with
  | zero =>
    intro e e' t tr h
    rw [move_loop] at h
    split at h
    case isTrue hEq =>
      simp only [Option.some.injEq, Prod.mk.injEq] at h
      obtain ⟨rfl, rfl⟩ := h
      exact ⟨rfl, rfl, rfl, rfl, rfl, fun _ => hEq, by omega, by omega, by simp⟩
    case isFalse => exact Option.noConfusion h
  | succ f ih =>
    intro e e' t tr h
    rw [move_loop] at h
    split at h
    case isTrue hEq =>
      simp only [Option.some.injEq, Prod.mk.injEq] at h
      obtain ⟨rfl, rfl⟩ := h
      exact ⟨rfl, rfl, rfl, rfl, rfl, fun _ => hEq, by omega, by omega, by simp⟩
    case isFalse hne =>
      cases hst : e.status with
      | UP =>
        rw [hst] at h
        dsimp only at h
        rcases hrec : move_loop b f (move_up e) t with _ | ⟨e2, tr2⟩
        · rw [hrec] at h
          exact Option.noConfusion h
        · rw [hrec] at h
          dsimp only at h
          simp only [Option.some.injEq, Prod.mk.injEq] at h
          obtain ⟨rfl, rfl⟩ := h
          rcases lt_or_gt_of_ne hne with hlt | hgt
          · obtain ⟨m1, m2, m3, m4, m5, m6, m7, m8, m9⟩ := ih (move_up e) e2 t tr2 hrec
            simp only [move_up] at m1 m2 m3 m4 m5 m7 m8
            refine ⟨m1, m2, m3, m4.trans hst, m5, m6, by omega, by omega, ?_⟩
            intro x hx
            rcases List.mem_cons.mp hx with rfl | hx2
            · exact ⟨rfl, rfl, rfl, by simp only [move_up]; omega, by simp only [move_up]; omega⟩
            · obtain ⟨g1, g2, g3, g4, g5⟩ := m9 x hx2
              simp only [move_up] at g1 g2 g3 g4 g5
              exact ⟨g1, g2, g3, by omega, by omega⟩
          · exfalso
            have hnone : move_loop b f (move_up e) t = none :=
              move_loop_up_none b f (move_up e) t (by simp [move_up, hst])
                (by simp [move_up]; omega)
            rw [hnone] at hrec
            exact Option.noConfusion hrec
      | DOWN =>
        rw [hst] at h
        dsimp only at h
        rcases hrec : move_loop b f (move_down e) t with _ | ⟨e2, tr2⟩
        · rw [hrec] at h
          exact Option.noConfusion h
        · rw [hrec] at h
          dsimp only at h
          simp only [Option.some.injEq, Prod.mk.injEq] at h
          obtain ⟨rfl, rfl⟩ := h
          rcases lt_or_gt_of_ne hne with hlt | hgt
          · exfalso
            have hnone : move_loop b f (move_down e) t = none :=
              move_loop_down_none b f (move_down e) t (by simp [move_down, hst])
                (by simp [move_down]; omega)
            rw [hnone] at hrec
            exact Option.noConfusion hrec
          · obtain ⟨m1, m2, m3, m4, m5, m6, m7, m8, m9⟩ := ih (move_down e) e2 t tr2 hrec
            simp only [move_down] at m1 m2 m3 m4 m5 m7 m8
            refine ⟨m1, m2, m3, m4.trans hst, m5, m6, by omega, by omega, ?_⟩
            intro x hx
            rcases List.mem_cons.mp hx with rfl | hx2
            · exact ⟨rfl, rfl, rfl, by simp only [move_down]; omega, by simp only [move_down]; omega⟩
            · obtain ⟨g1, g2, g3, g4, g5⟩ := m9 x hx2
              simp only [move_down] at g1 g2 g3 g4 g5
              exact ⟨g1, g2, g3, by omega, by omega⟩
      | REST =>
        rw [hst] at h
        dsimp only at h
        split at h
        case isTrue hb =>
          simp only [Option.some.injEq, Prod.mk.injEq] at h
          obtain ⟨rfl, rfl⟩ := h
          refine ⟨rfl, rfl, rfl, hst, rfl, fun hbf => ?_, by omega, by omega, by simp⟩
          exact absurd hb (by rw [hbf]; simp)
        case isFalse => exact Option.noConfusion h
      | MAINTENANCE =>
        rw [hst] at h
        dsimp only at h
        split at h
        case isTrue hb =>
          simp only [Option.some.injEq, Prod.mk.injEq] at h
          obtain ⟨rfl, rfl⟩ := h
          refine ⟨rfl, rfl, rfl, hst, rfl, fun hbf => ?_, by omega, by omega, by simp⟩
          exact absurd hb (by rw [hbf]; simp)
        case isFalse => exact Option.noConfusion h

/-- Destructing a successful `sanity_check`: the capacity rule holds and one
of the two direction rules holds. -/
lemma sanity_check_true_elim {e : Elevator} {d : String} {dest party : Int}
    (h : sanity_check e d dest party = true) :
    e.current_capacity + party ≤ e.capacity ∧
      ((d = "UP" ∧ e.current_floor < dest) ∨ (d = "DOWN" ∧ dest < e.current_floor)) := by
  unfold sanity_check at h
  split at h
  case _ hcap =>
    split at h
    case _ hup => exact ⟨hcap, Or.inl hup⟩
    case _ =>
      split at h
      case _ hdn => exact ⟨hcap, Or.inr hdn⟩
      case _ => cases h
  case _ => cases h

/-- The pickup leg of the dispatch loop (lines 194–208): from any floor, the
status chosen by the sign comparison drives the car to the pickup floor in
exactly `|start - current|` moves, without touching the occupancy. -/
lemma pickup_phase (fuel : Nat) (e : Elevator) (start : Int)
    (hf : (start - e.current_floor).natAbs ≤ fuel) :
    ∃ st tr1,
      move_loop false fuel
        (if e.current_floor - start > 0 then set_status e "DOWN"
         else if e.current_floor - start < 0 then set_status e "UP" else e) start =
        some ({ e with current_floor := start, status := st }, tr1) ∧
      tr1.length = (start - e.current_floor).natAbs ∧
      ∀ x ∈ tr1, x.current_capacity = e.current_capacity := by
  rcases lt_trichotomy e.current_floor start with h | h | h
  · refine ⟨Status.UP, ?_⟩
    rw [if_neg (by omega), if_pos (by omega), set_status_UP]
    obtain ⟨tr1, hloop, hlen, hmem⟩ :=
      move_loop_reach false fuel { e with status := Status.UP } start
        ⟨fun _ => rfl, fun hc => absurd hc (by simp; omega)⟩ (by simpa using hf)
    exact ⟨tr1, hloop, by simpa using hlen, fun x hx => (hmem x hx).2.2.1⟩
  · refine ⟨e.status, [], ?_, by simp; omega, by simp⟩
    rw [if_neg (by omega), if_neg (by omega)]
    have hrec : ({ e with current_floor := start, status := e.status } : Elevator) = e := by
      rw [← h]
    rw [hrec]
    cases fuel <;> simp [move_loop, h]
  · refine ⟨Status.DOWN, ?_⟩
    rw [if_pos (by omega), set_status_DOWN]
    obtain ⟨tr1, hloop, hlen, hmem⟩ :=
      move_loop_reach false fuel { e with status := Status.DOWN } start
        ⟨fun hc => absurd hc (by simp; omega), fun _ => rfl⟩ (by simpa using hf)
    exact ⟨tr1, hloop, by simpa using hlen, fun x hx => (hmem x hx).2.2.1⟩

/-- An accepted request: pickup leg, boarding of exactly `party` passengers,
drop-off leg to the destination, unloading of the same `party`, rest. The trace
shows the boarded occupancy throughout the drop-off leg, and the final
occupancy equals the occupancy before boarding. -/
lemma process_one_accepted (fuel : Nat) (e : Elevator) (fields : List String)
    (d : String) (dest party start : Int)
    (hp : parse_fields fields = Except.ok (d, dest, party, start))
    (hf1 : (start - e.current_floor).natAbs ≤ fuel)
    (hf2 : (dest - start).natAbs ≤ fuel)
    (hacc : sanity_check { e with current_floor := start, status := Status.REST } d dest party
      = true) :
    ∃ tr1 tr2, process_one fuel e (QueueItem.sig fields) =
        Except.ok ({ e with current_floor := dest, status := Status.REST }, true, tr1 ++ tr2) ∧
      tr1.length = (start - e.current_floor).natAbs ∧
      tr2.length = (dest - start).natAbs ∧
      (∀ x ∈ tr1, x.current_capacity = e.current_capacity) ∧
      (∀ x ∈ tr2, x.current_capacity = e.current_capacity + party) := by
  obtain ⟨hcap, hdir⟩ := sanity_check_true_elim hacc
  obtain ⟨st, tr1, hloop, hlen1, hmem1⟩ := pickup_phase fuel e start hf1
  refine ⟨tr1, ?_⟩
  rcases hdir with ⟨hd, hlt⟩ | ⟨hd, hlt⟩
  · -- UP leg
    subst hd
    have hlt' : start < dest := by simpa using hlt
    obtain ⟨tr2, hloop2, hlen2, hmem2⟩ :=
      move_loop_reach true fuel
        { e with current_floor := start, current_capacity := e.current_capacity + party, status := Status.UP } dest
        ⟨fun _ => rfl, fun hc => absurd hc (by simp; omega)⟩ (by simpa using hf2)
    refine ⟨tr2, ?_, by simpa using hlen1, by simpa using hlen2,
      fun x hx => hmem1 x hx, fun x hx => by simpa using (hmem2 x hx).2.2.1⟩
    simp only [process_one, hp]
    rw [hloop]
    simp only [set_status_REST]
    rw [if_pos hacc]
    simp only [add_occupancy]
    rw [if_pos (by simp), set_status_UP]
    dsimp only
    rw [hloop2]
    simp only [set_status_REST, add_occupancy]
    rw [show e.current_capacity + party + -party = e.current_capacity from by ring]
  · -- DOWN leg
    subst hd
    have hlt' : dest < start := by simpa using hlt
    obtain ⟨tr2, hloop2, hlen2, hmem2⟩ :=
      move_loop_reach true fuel
        { e with current_floor := start, current_capacity := e.current_capacity + party, status := Status.DOWN } dest
        ⟨fun hc => absurd hc (by simp; omega), fun _ => rfl⟩ (by simpa using hf2)
    refine ⟨tr2, ?_, by simpa using hlen1, by simpa using hlen2,
      fun x hx => hmem1 x hx, fun x hx => by simpa using (hmem2 x hx).2.2.1⟩
    simp only [process_one, hp]
    rw [hloop]
    simp only [set_status_REST]
    rw [if_pos hacc]
    simp only [add_occupancy]
    rw [if_pos (by simp), set_status_DOWN]
    dsimp only
    rw [hloop2]
    simp only [set_status_REST, add_occupancy]
    rw [show e.current_capacity + party + -party = e.current_capacity from by ring]

/-- A rejected request: the car is driven to the pickup floor (exactly
`|start - current|` snapshots, occupancy untouched), is set to `REST`, fails
the admission check there, and nothing else happens. -/
lemma process_one_rejected (fuel : Nat) (e : Elevator) (fields : List String)
    (d : String) (dest party start : Int)
    (hp : parse_fields fields = Except.ok (d, dest, party, start))
    (hf : (start - e.current_floor).natAbs ≤ fuel)
    (hrej : sanity_check { e with current_floor := start, status := Status.REST } d dest party
      = false) :
    ∃ tr, process_one fuel e (QueueItem.sig fields) =
        Except.ok ({ e with current_floor := start, status := Status.REST }, true, tr) ∧
      tr.length = (start - e.current_floor).natAbs ∧
      ∀ x ∈ tr, x.current_capacity = e.current_capacity := by
  rcases lt_trichotomy e.current_floor start with h | h | h
  · obtain ⟨tr1, hloop, hlen, hmem⟩ :=
      move_loop_reach false fuel { e with status := Status.UP } start
        ⟨fun _ => rfl, fun hc => absurd hc (by simp; omega)⟩ (by simpa using hf)
    refine ⟨tr1, ?_, by simpa using hlen, fun x hx => (hmem x hx).2.2.1⟩
    simp only [process_one, hp]
    rw [if_neg (by omega), if_pos (by omega), set_status_UP, hloop]
    simp only [set_status_REST]
    rw [if_neg (by rw [hrej]; simp)]
  · refine ⟨[], ?_, by simp; omega, by simp⟩
    simp only [process_one, hp]
    rw [if_neg (by omega), if_neg (by omega)]
    have hml : move_loop false fuel e start = some (e, []) := by
      cases fuel <;> simp [move_loop, h]
    rw [hml]
    simp only [set_status_REST]
    rw [← h] at hrej ⊢
    rw [if_neg (by rw [hrej]; simp)]
  · obtain ⟨tr1, hloop, hlen, hmem⟩ :=
      move_loop_reach false fuel { e with status := Status.DOWN } start
        ⟨fun hc => absurd hc (by simp; omega), fun _ => rfl⟩ (by simpa using hf)
    refine ⟨tr1, ?_, by simpa using hlen, fun x hx => (hmem x hx).2.2.1⟩
    simp only [process_one, hp]
    rw [if_pos (by omega), set_status_DOWN, hloop]
    simp only [set_status_REST]
    rw [if_neg (by rw [hrej]; simp)]

/-- One successful dispatch-loop iteration on a well-bounded request keeps the
car invariant — occupancy within `[0, cap]`, floor within `[1, top]` — both for
the final state and for every emitted snapshot, and preserves the immutable
capacity field. Holds for any fuel for which the iteration succeeds. -/
lemma process_one_bounds (cap top : Int) (fuel : Nat) (e e' : Elevator) (r : Bool)
    (tr : List Elevator) (item : QueueItem)
    (hwb : well_bounded cap top item = true)
    (he : in_bounds cap top e) (hcap : e.capacity = cap)
    (h : process_one fuel e item = Except.ok (e', r, tr)) :
    in_bounds cap top e' ∧ e'.capacity = cap ∧
      ∀ x ∈ tr, 0 ≤ x.current_capacity ∧ x.current_capacity ≤ cap ∧
        1 ≤ x.current_floor ∧ x.current_floor ≤ top := by
  obtain ⟨he1, he2, he3, he4⟩ := he
  cases item with
  | quit => simp [well_bounded] at hwb
  | sig fields =>
    rcases hpf : parse_fields fields with er | ⟨d, dest, party, start⟩
    · simp [well_bounded, hpf] at hwb
    · simp only [well_bounded, hpf, decide_eq_true_eq] at hwb
      obtain ⟨hdior, hs1, hs2, hd1, hd2, hp0, hpc⟩ := hwb
      simp only [process_one, hpf] at h
      have hE1 : (if e.current_floor - start > 0 then set_status e "DOWN"
            else if e.current_floor - start < 0 then set_status e "UP" else e).capacity
              = e.capacity ∧
          (if e.current_floor - start > 0 then set_status e "DOWN"
            else if e.current_floor - start < 0 then set_status e "UP" else e).current_capacity
              = e.current_capacity ∧
          (if e.current_floor - start > 0 then set_status e "DOWN"
            else if e.current_floor - start < 0 then set_status e "UP" else e).current_floor
              = e.current_floor := by
        refine ⟨?_, ?_, ?_⟩
        · rw [apply_ite Elevator.capacity, apply_ite Elevator.capacity]
          simp
        · rw [apply_ite Elevator.current_capacity, apply_ite Elevator.current_capacity]
          simp
        · rw [apply_ite Elevator.current_floor, apply_ite Elevator.current_floor]
          simp
      obtain ⟨hE1cap, hE1cc, hE1cf⟩ := hE1
      split at h
      next hml => exact Except.noConfusion h
      next e2 tr1 hml =>
        obtain ⟨m1, m2, m3, m4, m5, m6, m7, m8, m9⟩ := move_loop_ok false fuel _ e2 start tr1 hml
        have he2cf : e2.current_floor = start := m6 rfl
        simp only [set_status_REST] at h
        split at h
        case isTrue hsan =>
          obtain ⟨hcapok, hdirok⟩ := sanity_check_true_elim hsan
          dsimp only at hcapok
          rcases hdior with hdu | hdd
          · subst hdu
            simp only [set_status_UP, add_occupancy] at h
            split at h
            next hml2 => exact Except.noConfusion h
            next e6 tr2 hml2 =>
              obtain ⟨n1, n2, n3, n4, n5, n6, n7, n8, n9⟩ :=
                move_loop_ok true fuel _ e6 dest tr2 hml2
              dsimp only at n2 n3 n7 n8
              simp only [Except.ok.injEq, Prod.mk.injEq] at h
              obtain ⟨rfl, hr, rfl⟩ := h
              refine ⟨⟨?_, ?_, ?_, ?_⟩, ?_, ?_⟩
              · dsimp only; omega
              · dsimp only; omega
              · dsimp only; omega
              · dsimp only; omega
              · dsimp only; omega
              · intro x hx
                rcases List.mem_append.mp hx with hx1 | hx2
                · obtain ⟨g1, g2, g3, g4, g5⟩ := m9 x hx1
                  refine ⟨by omega, by omega, by omega, by omega⟩
                · obtain ⟨g1, g2, g3, g4, g5⟩ := n9 x hx2
                  dsimp only at g1 g2 g3 g4 g5
                  refine ⟨by omega, by omega, by omega, by omega⟩
          · subst hdd
            simp only [set_status_DOWN, add_occupancy] at h
            split at h
            next hml2 => exact Except.noConfusion h
            next e6 tr2 hml2 =>
              obtain ⟨n1, n2, n3, n4, n5, n6, n7, n8, n9⟩ :=
                move_loop_ok true fuel _ e6 dest tr2 hml2
              dsimp only at n2 n3 n7 n8
              simp only [Except.ok.injEq, Prod.mk.injEq] at h
              obtain ⟨rfl, hr, rfl⟩ := h
              refine ⟨⟨?_, ?_, ?_, ?_⟩, ?_, ?_⟩
              · dsimp only; omega
              · dsimp only; omega
              · dsimp only; omega
              · dsimp only; omega
              · dsimp only; omega
              · intro x hx
                rcases List.mem_append.mp hx with hx1 | hx2
                · obtain ⟨g1, g2, g3, g4, g5⟩ := m9 x hx1
                  refine ⟨by omega, by omega, by omega, by omega⟩
                · obtain ⟨g1, g2, g3, g4, g5⟩ := n9 x hx2
                  dsimp only at g1 g2 g3 g4 g5
                  refine ⟨by omega, by omega, by omega, by omega⟩
        case isFalse hsan =>
          simp only [Except.ok.injEq, Prod.mk.injEq] at h
          obtain ⟨rfl, hr, rfl⟩ := h
          refine ⟨⟨?_, ?_, ?_, ?_⟩, ?_, ?_⟩
          · dsimp only; omega
          · dsimp only; omega
          · dsimp only; omega
          · dsimp only; omega
          · dsimp only; omega
          · intro x hx
            obtain ⟨g1, g2, g3, g4, g5⟩ := m9 x hx
            refine ⟨by omega, by omega, by omega, by omega⟩

/-- The dispatch loop over any queue prefix of well-bounded requests keeps the
car invariant at the end and at every snapshot, for any fuel on which the run
succeeds. -/
lemma process_elevator_bounds (cap top : Int) (fuel : Nat) :
    ∀ (items : List QueueItem) (e e' : Elevator) (trace : List Elevator),
      (∀ item ∈ items, well_bounded cap top item = true) →
      in_bounds cap top e → e.capacity = cap →
      process_elevator fuel e items = Except.ok (e', trace) →
      in_bounds cap top e' ∧ e'.capacity = cap ∧
        ∀ x ∈ trace, 0 ≤ x.current_capacity ∧ x.current_capacity ≤ cap ∧
          1 ≤ x.current_floor ∧ x.current_floor ≤ top := by
  intro items
  induction items with
  | nil =>
    intro e e' trace hwb he hcap h
    simp only [process_elevator, Except.ok.injEq, Prod.mk.injEq] at h
    obtain ⟨rfl, rfl⟩ := h
    exact ⟨he, hcap, by simp⟩
  | cons item rest ih =>
    intro e e' trace hwb he hcap h
    simp only [process_elevator] at h
    rcases hone : process_one fuel e item with er | ⟨e1, r, tr1⟩
    · rw [hone] at h
      exact Except.noConfusion h
    · rw [hone] at h
      dsimp only at h
      obtain ⟨hb1, hb2, hb3⟩ := process_one_bounds cap top fuel e e1 r tr1 item
        (hwb item (by simp)) he hcap hone
      cases r with
      | true =>
        rw [if_pos rfl] at h
        rcases hrest : process_elevator fuel e1 rest with er | ⟨e2, tr2⟩
        · rw [hrest] at h
          exact Except.noConfusion h
        · rw [hrest] at h
          dsimp only at h
          simp only [Except.ok.injEq, Prod.mk.injEq] at h
          obtain ⟨rfl, rfl⟩ := h
          obtain ⟨g1, g2, g3⟩ := ih e1 e2 tr2 (fun it hit => hwb it (by simp [hit])) hb1 hb2 hrest
          refine ⟨g1, g2, fun x hx => ?_⟩
          rcases List.mem_append.mp hx with hx1 | hx2
          · exact hb3 x hx1
          · exact g3 x hx2
      | false =>
        rw [if_neg (by simp)] at h
        simp only [Except.ok.injEq, Prod.mk.injEq] at h
        obtain ⟨rfl, rfl⟩ := h
        exact ⟨hb1, hb2, hb3⟩

/-! ### Claim theorems -/

/-- C1: for every car state and every request, `sanity_check` (the admission
check `can_board`) returns `true` iff occupancy + party size fits the capacity
and the direction is consistent (`UP` with a strictly higher destination, or
`DOWN` with a strictly lower one); in particular it returns `false` whenever
the destination equals the current floor. Determinism and absence of side
effects on the car are inherent in the embedding: `sanity_check` is a pure
function of the car state, exactly as the source only reads
`elevator.current_capacity`, `elevator.capacity` and `elevator.current_floor`. -/
theorem sanity_check_characterization (e : Elevator) (d : String) (dest party : Int) :
    (sanity_check e d dest party = true ↔
      (e.current_capacity + party ≤ e.capacity ∧
        ((d = "UP" ∧ dest > e.current_floor) ∨ (d = "DOWN" ∧ dest < e.current_floor)))) ∧
    sanity_check e d e.current_floor party = false := by
  constructor
  · unfold sanity_check
    by_cases hcap : e.current_capacity + party ≤ e.capacity
    · rw [if_pos hcap]
      by_cases hup : d = "UP" ∧ dest > e.current_floor
      · rw [if_pos hup]
        simp [hcap, hup]
      · rw [if_neg hup]
        by_cases hdn : d = "DOWN" ∧ dest < e.current_floor
        · rw [if_pos hdn]
          simp [hcap, hdn]
        · rw [if_neg hdn]
          simp only [Bool.false_eq_true, false_iff]
          tauto
    · rw [if_neg hcap]
      simp [hcap]
  · unfold sanity_check
    split
    · rw [if_neg (by simp), if_neg (by simp)]
    · rfl

/-- C9: `move_up` increments and `move_down` decrements `current_floor` by
exactly one, unconditionally — also when the car already sits at the top floor
or at floor 1 — and they change no other field, so the motion primitives never
enforce the floor range themselves. -/
theorem move_primitives_unconditional (e : Elevator) :
    move_up e = { e with current_floor := e.current_floor + 1 } ∧
    move_down e = { e with current_floor := e.current_floor - 1 } ∧
    (e.current_floor = e.floor → (move_up e).current_floor = e.floor + 1) ∧
    (e.current_floor = 1 → (move_down e).current_floor = 0) :=
  ⟨rfl, rfl, fun h => by simp [move_up, h], fun h => by simp [move_down, h]⟩

/-- Concrete car sitting at its top floor, for the C9 witness. -/
def car_at_top : Elevator := { Elevator.init "ELEVATOR_A" 15 10 with current_floor := 10 }

/-- Witness for C9: at the top floor, `move_up` still leaves the range, and at
floor 1, `move_down` reaches floor 0. -/
theorem move_primitives_unconditional_witness :
    (car_at_top.current_floor = car_at_top.floor ∧
      (move_up car_at_top).current_floor = car_at_top.floor + 1) ∧
    ((Elevator.init "ELEVATOR_A" 15 10).current_floor = 1 ∧
      (move_down (Elevator.init "ELEVATOR_A" 15 10)).current_floor = 0) :=
  ⟨⟨rfl, (move_primitives_unconditional car_at_top).2.2.1 rfl⟩,
   ⟨rfl, (move_primitives_unconditional (Elevator.init "ELEVATOR_A" 15 10)).2.2.2 rfl⟩⟩

/-- C10: `set_status` on any string other than the four recognized tokens
leaves the whole car unchanged (the wildcard branch only prints) and, being a
total function, raises nothing; each recognized token sets exactly the status
field. -/
theorem set_status_token_table (e : Elevator) (s : String) :
    (s ≠ "UP" → s ≠ "DOWN" → s ≠ "REST" → s ≠ "MAINTENANCE" → set_status e s = e) ∧
    set_status e "UP" = { e with status := Status.UP } ∧
    set_status e "DOWN" = { e with status := Status.DOWN } ∧
    set_status e "REST" = { e with status := Status.REST } ∧
    set_status e "MAINTENANCE" = { e with status := Status.MAINTENANCE } := by
  refine ⟨fun h1 h2 h3 h4 => ?_, by simp, by simp, by simp, ?_⟩
  · unfold set_status
    rw [if_neg h1, if_neg h2, if_neg h3, if_neg h4]
  · unfold set_status
    rw [if_neg (by decide), if_neg (by decide), if_neg (by decide), if_pos rfl]

/-- Concrete car for the C10 witness. -/
def car_for_status : Elevator := Elevator.init "ELEVATOR_A" 15 10

/-- Witness for C10: the lowercase token `"up"` is not recognized (the Python
`match` compares case-sensitively) and leaves the car untouched. -/
theorem set_status_token_table_witness :
    ("up" ≠ "UP" ∧ "up" ≠ "DOWN" ∧ "up" ≠ "REST" ∧ "up" ≠ "MAINTENANCE") ∧
      set_status car_for_status "up" = car_for_status :=
  ⟨⟨by decide, by decide, by decide, by decide⟩,
    (set_status_token_table car_for_status "up").1 (by decide) (by decide) (by decide) (by decide)⟩

/-- C2: starting from the initial state (floor 1, occupancy 0, `REST`) with
capacity `cap ≥ 0` and top floor `top ≥ 1`, processing any queue of requests
whose fields satisfy the Request Source bounds keeps the occupancy within
`[0, cap]` and the floor within `[1, top]` — for the final state and for every
single-floor movement snapshot emitted along the way. -/
theorem dispatch_invariant (cap top : Int) (fuel : Nat) (items : List QueueItem)
    (e' : Elevator) (trace : List Elevator)
    (hcap : 0 ≤ cap) (htop : 1 ≤ top)
    (hwb : ∀ item ∈ items, well_bounded cap top item = true)
    (hrun : process_elevator fuel (Elevator.init "ELEVATOR_A" cap top) items
      = Except.ok (e', trace)) :
    in_bounds cap top e' ∧
      ∀ x ∈ trace, 0 ≤ x.current_capacity ∧ x.current_capacity ≤ cap ∧
        1 ≤ x.current_floor ∧ x.current_floor ≤ top := by
  obtain ⟨g1, _, g3⟩ := process_elevator_bounds cap top fuel items
    (Elevator.init "ELEVATOR_A" cap top) e' trace hwb
    ⟨le_refl 0, hcap, le_refl 1, htop⟩ rfl hrun
  exact ⟨g1, g3⟩

/-- Final car of the C2 witness run (Scenario 2 through the whole loop). -/
def car_after_inv : Elevator := { Elevator.init "ELEVATOR_A" 4 5 with current_floor := 5 }

/-- Snapshot trace of the C2 witness run: floors 2 and 3 while empty, floors
4 and 5 with the boarded party of 2. -/
def trace_inv : List Elevator :=
  [{ Elevator.init "ELEVATOR_A" 4 5 with current_floor := 2, status := Status.UP },
   { Elevator.init "ELEVATOR_A" 4 5 with current_floor := 3, status := Status.UP },
   { Elevator.init "ELEVATOR_A" 4 5 with current_floor := 4, status := Status.UP, current_capacity := 2 },
   { Elevator.init "ELEVATOR_A" 4 5 with current_floor := 5, status := Status.UP, current_capacity := 2 }]

/-- Witness for C2: the Scenario 2 queue on a capacity-4, top-floor-5 car. -/
theorem dispatch_invariant_witness :
    ((0 : Int) ≤ 4 ∧ (1 : Int) ≤ 5 ∧
      (∀ item ∈ [QueueItem.sig ["UP", "5", "2", "3"]], well_bounded 4 5 item = true) ∧
      process_elevator 10 (Elevator.init "ELEVATOR_A" 4 5) [QueueItem.sig ["UP", "5", "2", "3"]]
        = Except.ok (car_after_inv, trace_inv)) ∧
    (in_bounds 4 5 car_after_inv ∧
      ∀ x ∈ trace_inv, 0 ≤ x.current_capacity ∧ x.current_capacity ≤ 4 ∧
        1 ≤ x.current_floor ∧ x.current_floor ≤ 5) :=
  ⟨⟨by decide, by decide, by decide, by rfl⟩,
    dispatch_invariant 4 5 10 [QueueItem.sig ["UP", "5", "2", "3"]] car_after_inv trace_inv
      (by decide) (by decide) (by decide) (by rfl)⟩

/-- C4: for every accepted request, the occupancy after unloading at the
destination equals the occupancy before boarding at the pickup floor:
boarding adds exactly `party` (visible in every drop-off snapshot) and
unloading subtracts exactly the same `party`, net zero across the leg. -/
theorem accepted_leg_net_zero (fuel : Nat) (e : Elevator) (fields : List String)
    (d : String) (dest party start : Int)
    (hp : parse_fields fields = Except.ok (d, dest, party, start))
    (hf1 : (start - e.current_floor).natAbs ≤ fuel)
    (hf2 : (dest - start).natAbs ≤ fuel)
    (hacc : sanity_check { e with current_floor := start, status := Status.REST } d dest party
      = true) :
    ∃ e' tr1 tr2, process_one fuel e (QueueItem.sig fields) =
        Except.ok (e', true, tr1 ++ tr2) ∧
      e'.current_capacity = e.current_capacity ∧
      (∀ x ∈ tr1, x.current_capacity = e.current_capacity) ∧
      (∀ x ∈ tr2, x.current_capacity = e.current_capacity + party) := by
  obtain ⟨tr1, tr2, hrun, _, _, hmem1, hmem2⟩ :=
    process_one_accepted fuel e fields d dest party start hp hf1 hf2 hacc
  exact ⟨_, tr1, tr2, hrun, rfl, hmem1, hmem2⟩

/-- Car of Scenario 2 (capacity 4, top floor 5, at floor 1), for the C4 and C7
witnesses. -/
def car_scenario2 : Elevator := Elevator.init "ELEVATOR_A" 4 5

/-- Witness for C4: Scenario 2 — request UP from floor 3 to floor 5 with a
party of 2, starting from floor 1 with occupancy 0. -/
theorem accepted_leg_net_zero_witness :
    (parse_fields ["UP", "5", "2", "3"] = Except.ok ("UP", 5, 2, 3) ∧
      ((3 - car_scenario2.current_floor).natAbs ≤ 10 ∧ ((5 : Int) - 3).natAbs ≤ 10) ∧
      sanity_check { car_scenario2 with current_floor := 3, status := Status.REST } "UP" 5 2
        = true) ∧
    ∃ e' tr1 tr2, process_one 10 car_scenario2 (QueueItem.sig ["UP", "5", "2", "3"]) =
        Except.ok (e', true, tr1 ++ tr2) ∧
      e'.current_capacity = car_scenario2.current_capacity ∧
      (∀ x ∈ tr1, x.current_capacity = car_scenario2.current_capacity) ∧
      (∀ x ∈ tr2, x.current_capacity = car_scenario2.current_capacity + 2) :=
  ⟨⟨rfl, ⟨by decide, by decide⟩, by decide⟩,
    accepted_leg_net_zero 10 car_scenario2 ["UP", "5", "2", "3"] "UP" 5 2 3 rfl
      (by decide) (by decide) (by decide)⟩

/-- C5: a request that fails the admission check at boarding time leaves the
car with occupancy unchanged, positioned at the pickup floor, in `REST`; the
only movement is the pickup leg (no drop-off moves appear in the trace) and
the loop keeps running for the next item. -/
theorem rejected_request_no_effect (fuel : Nat) (e : Elevator) (fields : List String)
    (d : String) (dest party start : Int)
    (hp : parse_fields fields = Except.ok (d, dest, party, start))
    (hf : (start - e.current_floor).natAbs ≤ fuel)
    (hrej : sanity_check { e with current_floor := start, status := Status.REST } d dest party
      = false) :
    ∃ tr, process_one fuel e (QueueItem.sig fields) =
        Except.ok ({ e with current_floor := start, status := Status.REST }, true, tr) ∧
      tr.length = (start - e.current_floor).natAbs ∧
      ∀ x ∈ tr, x.current_capacity = e.current_capacity :=
  process_one_rejected fuel e fields d dest party start hp hf hrej

/-- Car of Scenario 3 (capacity 2 already fully occupied, at floor 1), for the
C5 witness. -/
def car_full : Elevator := { Elevator.init "ELEVATOR_A" 2 10 with current_capacity := 2 }

/-- Witness for C5: Scenario 3 — request UP from floor 1 to floor 4 with a
party of 1 against a full car: rejected, car unchanged at floor 1. -/
theorem rejected_request_no_effect_witness :
    (parse_fields ["UP", "4", "1", "1"] = Except.ok ("UP", 4, 1, 1) ∧
      (1 - car_full.current_floor).natAbs ≤ 10 ∧
      sanity_check { car_full with current_floor := 1, status := Status.REST } "UP" 4 1
        = false) ∧
    ∃ tr, process_one 10 car_full (QueueItem.sig ["UP", "4", "1", "1"]) =
        Except.ok ({ car_full with current_floor := 1, status := Status.REST }, true, tr) ∧
      tr.length = (1 - car_full.current_floor).natAbs ∧
      ∀ x ∈ tr, x.current_capacity = car_full.current_capacity :=
  ⟨⟨rfl, by decide, by decide⟩,
    rejected_request_no_effect 10 car_full ["UP", "4", "1", "1"] "UP" 4 1 1 rfl
      (by decide) (by decide)⟩

/-- Car and item for the C6 theorems. -/
def car_c6 : Elevator := Elevator.init "ELEVATOR_A" 15 10

/-- Counterexample to C6 as stated: dequeuing the sentinel is not the only
path that ends the Dispatch Loop, and a non-sentinel item does not always
leave the loop running. The malformed item `["UP"]` (too short a list) is not
the sentinel, yet processing it raises an uncaught `IndexError` at
`int(signal[1])`, so the iteration never completes with `elevator_running`
still true — the thread's loop is terminated by the escaping error. -/
theorem nonsentinel_ends_loop_counterexample :
    QueueItem.sig ["UP"] ≠ QueueItem.quit ∧
    process_one 5 car_c6 (QueueItem.sig ["UP"]) = Except.error Err.indexError ∧
    ∀ (e' : Elevator) (tr : List Elevator),
      process_one 5 car_c6 (QueueItem.sig ["UP"]) ≠ Except.ok (e', true, tr) := by
  refine ⟨by decide, rfl, fun e' tr h => ?_⟩
  rw [show process_one 5 car_c6 (QueueItem.sig ["UP"]) = Except.error Err.indexError
    from rfl] at h
  cases h

/-- C6 amended: dequeuing the `"QUIT"` sentinel makes the loop exit without
moving the car or mutating its occupancy or motion status (the returned car is
the very same state, with an empty snapshot trace), and the sentinel is the
only *normal* exit: among iterations that complete, only the sentinel sets
`elevator_running` false. It is however not the only path that ends the loop:
a non-sentinel item whose field extraction fails ends the loop abnormally, the
error escaping uncaught. -/
theorem quit_sentinel_normal_exit (fuel : Nat) (e : Elevator) :
    process_one fuel e QueueItem.quit = Except.ok (e, false, []) ∧
    (∀ (item : QueueItem) (e' : Elevator) (running : Bool) (tr : List Elevator),
      process_one fuel e item = Except.ok (e', running, tr) →
      (running = false ↔ item = QueueItem.quit)) ∧
    (∀ (fields : List String) (er : Err), parse_fields fields = Except.error er →
      process_one fuel e (QueueItem.sig fields) = Except.error er) := by
  refine ⟨rfl, fun item e' running tr h => ?_, fun fields er hp => ?_⟩
  case refine_2 =>
    simp only [process_one]
    rw [hp]
  cases item with
  | quit =>
    simp only [process_one, Except.ok.injEq, Prod.mk.injEq] at h
    simp [← h.2.1]
  | sig fields =>
    have hrun : running = true := by
      rcases hpf : parse_fields fields with er | ⟨d, dest, party, start⟩
      · simp only [process_one, hpf] at h
        exact Except.noConfusion h
      · simp only [process_one, hpf] at h
        split at h
        · cases h
        · split at h
          · split at h
            · cases h
            · simp only [Except.ok.injEq, Prod.mk.injEq] at h
              exact h.2.1.symm
          · simp only [Except.ok.injEq, Prod.mk.injEq] at h
            exact h.2.1.symm
    rw [hrun]
    simp

/-- Expected final state of the C6 witness run. -/
def car_c6_after : Elevator := { car_c6 with current_floor := 2, status := Status.REST }

/-- Expected snapshot trace of the C6 witness run. -/
def tr_c6 : List Elevator := [{ car_c6 with current_floor := 2, status := Status.UP }]

/-- Witness for the amended C6: a concrete non-sentinel request processed to
completion leaves the loop running, and the concrete malformed item `["UP"]`
makes the extraction error escape. -/
theorem quit_sentinel_normal_exit_witness :
    (process_one 3 car_c6 (QueueItem.sig ["UP", "2", "0", "1"]) =
        Except.ok (car_c6_after, true, tr_c6) ∧
      parse_fields ["UP"] = Except.error Err.indexError) ∧
    ((true = false ↔ QueueItem.sig ["UP", "2", "0", "1"] = QueueItem.quit) ∧
      process_one 3 car_c6 (QueueItem.sig ["UP"]) = Except.error Err.indexError) :=
  ⟨⟨by rfl, by rfl⟩,
    ⟨(quit_sentinel_normal_exit 3 car_c6).2.1
        (QueueItem.sig ["UP", "2", "0", "1"]) car_c6_after true tr_c6 (by rfl),
      (quit_sentinel_normal_exit 3 car_c6).2.2 ["UP"] Err.indexError (by rfl)⟩⟩

/-- C7: processing of a single request with in-range fields terminates: the
pickup leg takes exactly `|current - start|` single-floor moves, and, when the
request is accepted, the drop-off leg takes exactly `|dest - start|` more; a
rejected request stops after the pickup leg. -/
theorem request_processing_terminates (fuel : Nat) (e : Elevator) (fields : List String)
    (d : String) (dest party start : Int)
    (hp : parse_fields fields = Except.ok (d, dest, party, start))
    (hd : d = "UP" ∨ d = "DOWN")
    (hs1 : 1 ≤ start) (hs2 : start ≤ e.floor)
    (hd1 : 1 ≤ dest) (hd2 : dest ≤ e.floor)
    (hpty : 0 ≤ party) (hptyc : party ≤ e.capacity)
    (hf1 : (start - e.current_floor).natAbs ≤ fuel)
    (hf2 : (dest - start).natAbs ≤ fuel) :
    ∃ e' tr, process_one fuel e (QueueItem.sig fields) = Except.ok (e', true, tr) ∧
      (sanity_check { e with current_floor := start, status := Status.REST } d dest party = true →
        tr.length = (start - e.current_floor).natAbs + (dest - start).natAbs) ∧
      (sanity_check { e with current_floor := start, status := Status.REST } d dest party = false →
        tr.length = (start - e.current_floor).natAbs) := by
  cases hsan : sanity_check { e with current_floor := start, status := Status.REST } d dest party
  · obtain ⟨tr, hrun, hlen, _⟩ :=
      process_one_rejected fuel e fields d dest party start hp hf1 hsan
    exact ⟨_, tr, hrun, fun hc => absurd hc (by decide), fun _ => hlen⟩
  · obtain ⟨tr1, tr2, hrun, hlen1, hlen2, _, _⟩ :=
      process_one_accepted fuel e fields d dest party start hp hf1 hf2 hsan
    refine ⟨_, tr1 ++ tr2, hrun, fun _ => ?_, fun hc => absurd hc (by decide)⟩
    simp [hlen1, hlen2]

/-- Witness for C7: the Scenario 2 request again, this time counting steps:
two pickup moves and two drop-off moves. -/
theorem request_processing_terminates_witness :
    (parse_fields ["UP", "5", "2", "3"] = Except.ok ("UP", 5, 2, 3) ∧
      ("UP" = "UP" ∨ "UP" = "DOWN") ∧
      ((1 : Int) ≤ 3 ∧ (3 : Int) ≤ car_scenario2.floor ∧ (1 : Int) ≤ 5 ∧
        (5 : Int) ≤ car_scenario2.floor ∧ (0 : Int) ≤ 2 ∧ (2 : Int) ≤ car_scenario2.capacity) ∧
      ((3 - car_scenario2.current_floor).natAbs ≤ 10 ∧ ((5 : Int) - 3).natAbs ≤ 10)) ∧
    ∃ e' tr, process_one 10 car_scenario2 (QueueItem.sig ["UP", "5", "2", "3"]) =
        Except.ok (e', true, tr) ∧
      (sanity_check { car_scenario2 with current_floor := 3, status := Status.REST } "UP" 5 2
          = true →
        tr.length = (3 - car_scenario2.current_floor).natAbs + ((5 : Int) - 3).natAbs) ∧
      (sanity_check { car_scenario2 with current_floor := 3, status := Status.REST } "UP" 5 2
          = false →
        tr.length = (3 - car_scenario2.current_floor).natAbs) :=
  ⟨⟨rfl, Or.inl rfl, ⟨by decide, by decide, by decide, by decide, by decide, by decide⟩,
      ⟨by decide, by decide⟩⟩,
    request_processing_terminates 10 car_scenario2 ["UP", "5", "2", "3"] "UP" 5 2 3 rfl
      (Or.inl rfl) (by decide) (by decide) (by decide) (by decide) (by decide) (by decide)
      (by decide) (by decide)⟩

/-- Car used by the C8 theorems. -/
def car_for_malformed : Elevator := Elevator.init "ELEVATOR_A" 15 10

/-- Counterexample to C8 as stated: on the malformed item
`["UP", "abc", "1", "1"]` (a non-numeric destination floor), the dispatch loop
body does not log-and-continue — the `ValueError` raised by `int(signal[1])`
escapes the loop uncaught, so processing does not produce any continuing
state. -/
theorem malformed_error_escapes_counterexample :
    process_one 10 car_for_malformed (QueueItem.sig ["UP", "abc", "1", "1"]) =
        Except.error Err.valueError ∧
    ∀ res : Elevator × Bool × List Elevator,
      process_one 10 car_for_malformed (QueueItem.sig ["UP", "abc", "1", "1"]) ≠
        Except.ok res := by
  refine ⟨rfl, fun res h => ?_⟩
  rw [show process_one 10 car_for_malformed (QueueItem.sig ["UP", "abc", "1", "1"]) =
      Except.error Err.valueError from rfl] at h
  cases h

/-- C8 amended: a dequeued item that is not the sentinel and not a well-formed
request tuple makes the field extraction of lines 184–187 raise, and that
error propagates out of the dispatch loop body unhandled (there is no `try` in
`process_elevator`), instead of being logged and skipped. -/
theorem malformed_error_escapes (fuel : Nat) (e : Elevator) (fields : List String) (er : Err)
    (hp : parse_fields fields = Except.error er) :
    process_one fuel e (QueueItem.sig fields) = Except.error er := by
  simp only [process_one]
  rw [hp]

/-- Witness for the amended C8: the concrete malformed item above. -/
theorem malformed_error_escapes_witness :
    parse_fields ["UP", "abc", "1", "1"] = Except.error Err.valueError ∧
      process_one 10 car_for_malformed (QueueItem.sig ["UP", "abc", "1", "1"]) =
        Except.error Err.valueError :=
  ⟨rfl, malformed_error_escapes 10 car_for_malformed ["UP", "abc", "1", "1"] Err.valueError rfl⟩

/-- Car with capacity 2 and occupancy 0, used by the C3 theorems. -/
def car_small : Elevator := Elevator.init "ELEVATOR_A" 2 10

/-- Counterexample to C3 as stated: the occupancy mutation the code actually
performs (`current_capacity += capacity`) does not fail with a `CapacityError`
when the result exceeds capacity, and does not leave the occupancy unchanged:
with capacity 2, occupancy 0 and delta 5 it simply writes occupancy 5. The
spec-modelled `set_occupancy_delta` would have failed here. -/
theorem add_occupancy_unchecked_counterexample :
    car_small.capacity = 2 ∧ car_small.current_capacity = 0 ∧
    (add_occupancy car_small 5).current_capacity = 5 ∧
    ¬ (add_occupancy car_small 5).current_capacity ≤ car_small.capacity ∧
    set_occupancy_delta_spec car_small 5 = Except.error CapacityError.capacityError := by
  refine ⟨rfl, rfl, rfl, by decide, rfl⟩

/-- C3 amended: the code's occupancy mutation is an unchecked in-place
addition that never fails — there is no `CapacityError` and no abort path; it
adds the delta exactly and touches no other field. It agrees with the spec's
`set_occupancy_delta` exactly when the result stays within `[0, capacity]`;
outside those bounds the spec operation fails while the code still applies the
mutation. -/
theorem add_occupancy_total_spec (e : Elevator) (delta : Int) :
    (add_occupancy e delta).current_capacity = e.current_capacity + delta ∧
    (add_occupancy e delta).capacity = e.capacity ∧
    (add_occupancy e delta).current_floor = e.current_floor ∧
    (add_occupancy e delta).status = e.status ∧
    (0 ≤ e.current_capacity + delta ∧ e.current_capacity + delta ≤ e.capacity →
      set_occupancy_delta_spec e delta = Except.ok (add_occupancy e delta)) ∧
    (e.current_capacity + delta < 0 ∨ e.capacity < e.current_capacity + delta →
      set_occupancy_delta_spec e delta = Except.error CapacityError.capacityError) := by
  refine ⟨rfl, rfl, rfl, rfl, fun h => ?_, fun h => ?_⟩
  · unfold set_occupancy_delta_spec
    rw [if_neg (by omega)]
    rfl
  · unfold set_occupancy_delta_spec
    rw [if_pos h]

/-- Witness for the amended C3: with capacity 2 and occupancy 0, a delta of 1
is applied and matches the spec operation, while a delta of 5 exceeds capacity
and makes only the spec operation fail. -/
theorem add_occupancy_total_spec_witness :
    ((0 ≤ car_small.current_capacity + 1 ∧ car_small.current_capacity + 1 ≤ car_small.capacity) ∧
      set_occupancy_delta_spec car_small 1 = Except.ok (add_occupancy car_small 1)) ∧
    (car_small.capacity < car_small.current_capacity + 5 ∧
      set_occupancy_delta_spec car_small 5 = Except.error CapacityError.capacityError) :=
  ⟨⟨⟨by decide, by decide⟩,
      (add_occupancy_total_spec car_small 1).2.2.2.2.1 ⟨by decide, by decide⟩⟩,
   ⟨by decide,
      (add_occupancy_total_spec car_small 5).2.2.2.2.2 (Or.inr (by decide))⟩⟩

end ElevatorSim
